import Mathlib

/-!
Shallow embedding of the two core wrappers from
`pypesto/sample/pymc3_interface/theano.py`:

* `CachedObjective` (the spec's AdaptiveCache): wraps an objective, computes
  the gradient jointly with the value after the first gradient request, and
  turns caching off again when the cached gradient sat unused.
* `LoggingObjective` (the spec's CallRecorder): wraps an objective and logs
  every call, re-raising inner failures after recording them.

Points, values and gradients are abstract types `X V G`; an inner objective
is a function `X → List Nat → String → Except E (ResultDict V G)` (the
`call_unprocessed` behaviour of the wrapped `ObjectiveBase`), where the
`List Nat` argument is the `sensi_orders` tuple and the `String` is `mode`.
An `Except.error` models a Python exception escaping the inner call.
-/

/-- `pypesto.objective.constants.MODE_FUN`. -/
def MODE_FUN : String := "mode_fun"

/-- A pypesto `ResultDict`, restricted to the keys `FVAL` and `GRAD` the
wrappers touch; `none` models an absent key. -/
structure ResultDict (V G : Type) where
  fval : Option V
  grad : Option G
deriving DecidableEq, Repr

/-- Exceptions that can escape the wrappers: an inner objective's own
exception propagated unchanged, a `KeyError` from a missing `ResultDict`
key, an `AssertionError` from `assert sensi_orders == (0, 1)`, the
rejection of unsupported orders by the `ObjectiveBase.__call__` gate, and
the `ValueError` raised by `max(())` on an empty orders tuple. -/
inductive PyExc (E : Type) where
  | innerExc : E → PyExc E
  | keyError : PyExc E
  | assertionError : PyExc E
  | unsupportedOrder : PyExc E
  | valueError : PyExc E
deriving DecidableEq, Repr

/-- Propagate an inner objective's outcome unchanged: a returned
`ResultDict` stays as is, an exception escapes as itself. -/
def liftInner {E α : Type} : Except E α → Except (PyExc E) α
  | .ok r => .ok r
  | .error e => .error (.innerExc e)

/-- The mutable cache attributes of a `CachedObjective` (`x_cached`,
`fval_cached`, `grad_cached`, `grad_has_been_used`). -/
structure CacheState (X V G : Type) where
  x_cached : Option X
  fval_cached : Option V
  grad_cached : Option G
  grad_has_been_used : Bool
deriving DecidableEq, Repr

namespace CachedObjective

/-- The attribute values set by `CachedObjective.__init__`; the reset
method of `CachedObjective` (lines 53–58) restores exactly this state. -/
def initial (X V G : Type) : CacheState X V G :=
  ⟨none, none, none, false⟩

/-- `CachedObjective.check_mode`. -/
def check_mode (mode : String) : Bool :=
  mode == MODE_FUN

/-- `CachedObjective.check_sensi_orders`, with the wrapped objective's
`check_sensi_orders` passed in as `objCheck`.  `none` models the
`ValueError` that `max(sensi_orders)` raises on an empty tuple. -/
def check_sensi_orders (objCheck : List Nat → String → Bool)
    (sensi_orders : List Nat) (mode : String) : Option Bool :=
  match sensi_orders.max? with
  | none => none
  | some m => some (if 1 < m ∨ mode ≠ MODE_FUN then false else objCheck sensi_orders mode)

/-- The tail of `CachedObjective.call_unprocessed` ("the required values
are in the cache"): answer the request from the cache state `s`, marking
the gradient as used when it is handed out.  `trace` is the list of inner
calls already issued by this outer call. -/
def answerFromCache {X V G E : Type} (s : CacheState X V G)
    (sensi_orders : List Nat) (trace : List (X × List Nat × String)) :
    Except (PyExc E) (ResultDict V G) × CacheState X V G × List (X × List Nat × String) :=
  if sensi_orders = [0] then
    (.ok ⟨s.fval_cached, none⟩, s, trace)
  else if sensi_orders = [1] then
    (.ok ⟨none, s.grad_cached⟩, { s with grad_has_been_used := true }, trace)
  else if sensi_orders = [0, 1] then
    (.ok ⟨s.fval_cached, s.grad_cached⟩, { s with grad_has_been_used := true }, trace)
  else
    (.error .assertionError, s, trace)

/-- `CachedObjective.call_unprocessed`.  Returns the outcome, the new cache
state, and the trace of inner calls issued (point, orders, mode).  The
miss test mirrors `not np.array_equal(x, self.x_cached)`, which is true
whenever `x_cached` is `None` or holds a different point. -/
def call_unprocessed {X V G E : Type} [DecidableEq X]
    (objective : X → List Nat → String → Except E (ResultDict V G))
    (s : CacheState X V G) (x : X) (sensi_orders : List Nat) (mode : String) :
    Except (PyExc E) (ResultDict V G) × CacheState X V G × List (X × List Nat × String) :=
  if sensi_orders = [0] ∧ s.x_cached = none then
    -- The gradient has not been called yet: caching is off
    (liftInner (objective x sensi_orders mode), s, [(x, sensi_orders, mode)])
  else
    if s.x_cached ≠ some x then
      -- If the currently cached gradient has never been used, turn off caching
      if sensi_orders = [0] ∧ s.grad_has_been_used = false then
        (liftInner (objective x sensi_orders mode),
          { s with x_cached := none }, [(x, sensi_orders, mode)])
      else
        -- Repopulate cache
        match objective x [0, 1] mode with
        | .error e => (.error (.innerExc e), s, [(x, [0, 1], mode)])
        | .ok retval =>
          match retval.fval with
          | none =>  -- KeyError on retval[FVAL], after x_cached was assigned
            (.error .keyError, { s with x_cached := some x }, [(x, [0, 1], mode)])
          | some f =>
            match retval.grad with
            | none =>  -- KeyError on retval[GRAD]
              (.error .keyError,
                { s with x_cached := some x, fval_cached := some f }, [(x, [0, 1], mode)])
            | some g =>
              answerFromCache ⟨some x, some f, some g, false⟩ sensi_orders [(x, [0, 1], mode)]
    else
      answerFromCache s sensi_orders []

/-- Modelled from the spec: `ObjectiveBase.__call__` (the repository's
`pypesto/objective/base.py` is not part of this excerpt) validates the
requested sensitivity orders with `check_sensi_orders` before dispatching
to `call_unprocessed`, so an unsupported combination "fails with an
`UnsupportedOrder` error before reaching the cache logic at all".  The
`none` outcome of the check (empty orders tuple) propagates as the
`ValueError` raised inside `check_sensi_orders` itself. -/
def evaluate {X V G E : Type} [DecidableEq X]
    (objective : X → List Nat → String → Except E (ResultDict V G))
    (objCheck : List Nat → String → Bool)
    (s : CacheState X V G) (x : X) (sensi_orders : List Nat) (mode : String) :
    Except (PyExc E) (ResultDict V G) × CacheState X V G × List (X × List Nat × String) :=
  match check_sensi_orders objCheck sensi_orders mode with
  | none => (.error .valueError, s, [])
  | some false => (.error .unsupportedOrder, s, [])
  | some true => call_unprocessed objective s x sensi_orders mode

end CachedObjective

/-- One outer call to a wrapper: the inner objective's behaviour for this
call (made explicit per call so that successive inner evaluations may
succeed or fail independently), the point, the orders and the mode. -/
structure OuterCall (X V G E : Type) where
  inner : X → List Nat → String → Except E (ResultDict V G)
  x : X
  sensi_orders : List Nat
  mode : String

namespace CachedObjective

/-- Run a sequence of outer calls to `CachedObjective.evaluate`, threading
the cache state; returns the final state, the concatenated inner-call
trace, and the per-call outcomes. -/
def runCalls {X V G E : Type} [DecidableEq X] (objCheck : List Nat → String → Bool) :
    List (OuterCall X V G E) → CacheState X V G →
    CacheState X V G × List (X × List Nat × String) ×
      List (Except (PyExc E) (ResultDict V G))
  | [], s => (s, [], [])
  | c :: cs, s =>
    let r := evaluate c.inner objCheck s c.x c.sensi_orders c.mode
    let rest := runCalls objCheck cs r.2.1
    (rest.1, r.2.2 ++ rest.2.1, r.1 :: rest.2.2)

end CachedObjective

/-- A whole `CachedObjective` instance: the wrapped objective's behaviour
(`self.objective.call_unprocessed`), its capability query
(`self.objective.check_sensi_orders`) and the cache attributes.  A deep
copy of a (pure) inner objective has the same behaviour functions. -/
structure CachedObjectiveObj (X V G E : Type) where
  objective : X → List Nat → String → Except E (ResultDict V G)
  objectiveCheck : List Nat → String → Bool
  state : CacheState X V G

namespace CachedObjectiveObj

/-- `CachedObjective.__init__(objective)`: store the wrapped objective and
set `x_cached`, `fval_cached`, `grad_cached` to `None` and
`grad_has_been_used` to `False`. -/
def mkCached {X V G E : Type}
    (objective : X → List Nat → String → Except E (ResultDict V G))
    (objectiveCheck : List Nat → String → Bool) : CachedObjectiveObj X V G E :=
  ⟨objective, objectiveCheck, CachedObjective.initial X V G⟩

/-- `CachedObjective.__deepcopy__`: `CachedObjective(copy.deepcopy(self.objective))`
— a fresh wrapper constructed over a deep copy of the inner objective. -/
def deepcopy {X V G E : Type} (o : CachedObjectiveObj X V G E) :
    CachedObjectiveObj X V G E :=
  mkCached o.objective o.objectiveCheck

end CachedObjectiveObj

/-- One record of a `LoggingObjective` log: the Python dict
`dict(x=..., sensi_orders=..., mode=..., fval=...)` on success or
`dict(x=..., sensi_orders=..., mode=..., err=...)` on failure; `none`
models an absent key. -/
structure LogRecord (X V E : Type) where
  x : X
  sensi_orders : List Nat
  mode : String
  fval : Option V
  err : Option E
deriving DecidableEq, Repr

namespace LoggingObjective

/-- `LoggingObjective.call_unprocessed`.  The first component is the call's
outcome; the second is the log pickled back to the file on exit (the dump
sits in a `finally`, so it happens on every path).  On success the record
is built from `retval['fval']`: if the inner result has no `fval` key that
lookup raises `KeyError` before the record is appended, so the log is
rewritten unchanged and the `KeyError` escapes. -/
def call_unprocessed {X V G E : Type}
    (objective : X → List Nat → String → Except E (ResultDict V G))
    (log : List (LogRecord X V E)) (x : X) (sensi_orders : List Nat) (mode : String) :
    Except (PyExc E) (ResultDict V G) × List (LogRecord X V E) :=
  match objective x sensi_orders mode with
  | .error err => (.error (.innerExc err), log ++ [⟨x, sensi_orders, mode, none, some err⟩])
  | .ok retval =>
    match retval.fval with
    | none => (.error .keyError, log)
    | some v => (.ok retval, log ++ [⟨x, sensi_orders, mode, some v, none⟩])

/-- Run a sequence of outer calls to `LoggingObjective`, threading the
persisted log; returns the final log and the per-call outcomes. -/
def runCalls {X V G E : Type} :
    List (OuterCall X V G E) → List (LogRecord X V E) →
    List (LogRecord X V E) × List (Except (PyExc E) (ResultDict V G))
  | [], log => (log, [])
  | c :: cs, log =>
    let r := call_unprocessed c.inner log c.x c.sensi_orders c.mode
    let rest := runCalls cs r.2
    (rest.1, r.1 :: rest.2)

/-- The log record that a call reaching `call_unprocessed` produces, when
it produces one: the failure record for an inner exception, the
`fval` record for a success (meaningful when `fval` is present). -/
def recordOf {X V G E : Type} (c : OuterCall X V G E) : LogRecord X V E :=
  match c.inner c.x c.sensi_orders c.mode with
  | .error e => ⟨c.x, c.sensi_orders, c.mode, none, some e⟩
  | .ok r => ⟨c.x, c.sensi_orders, c.mode, r.fval, none⟩

end LoggingObjective

/-!  Concrete instances used for witnesses and counterexamples: points are
`List Int`, values `Int`, gradients `List Int`, inner exceptions `Unit`. -/

/-- The spec's toy objective: `value = sum(x)`, `gradient = ones(len(x))`,
returning exactly the requested components. -/
def innerSum (x : List Int) (sensi_orders : List Nat) (_mode : String) :
    Except Unit (ResultDict Int (List Int)) :=
  .ok ⟨if 0 ∈ sensi_orders then some x.sum else none,
       if 1 ∈ sensi_orders then some (x.map fun _ => 1) else none⟩

/-- An inner objective that always raises. -/
def innerFail (_x : List Int) (_sensi_orders : List Nat) (_mode : String) :
    Except Unit (ResultDict Int (List Int)) :=
  .error ()

/-- A wrapped objective's capability query that accepts every orders tuple
in `MODE_FUN`. -/
def checkAll (_sensi_orders : List Nat) (mode : String) : Bool :=
  mode == MODE_FUN

/-- A wrapped objective's capability query that denies everything. -/
def checkNone (_sensi_orders : List Nat) (_mode : String) : Bool :=
  false

/-!  Predicates used to state the invariant claims. -/

def WellFormedJoint {X V G E : Type}
    (objective : X → List Nat → String → Except E (ResultDict V G)) : Prop :=
  ∀ x r, objective x [0, 1] MODE_FUN = .ok r → r.fval ≠ none ∧ r.grad ≠ none

def CacheConsistent {X V G E : Type}
    (objective : X → List Nat → String → Except E (ResultDict V G))
    (s : CacheState X V G) : Prop :=
  ∀ x0, s.x_cached = some x0 → ∃ r, objective x0 [0, 1] MODE_FUN = .ok r ∧
    r.fval = s.fval_cached ∧ r.grad = s.grad_cached ∧
    s.fval_cached ≠ none ∧ s.grad_cached ≠ none

/-!  Helper lemmas about the gate and the branches of `call_unprocessed`. -/

lemma le_of_mem_max? {l : List Nat} {m : Nat} (h : l.max? = some m) :
    ∀ b ∈ l, b ≤ m := by
  rw [List.max?_eq_some_iff (fun a => le_refl a) (fun a b => max_choice a b)
    (fun a b c => max_le_iff)] at h
  exact h.2

lemma exists_order_ge_two (sensi_orders : List Nat) (hne : sensi_orders ≠ [])
    (h0 : sensi_orders.toFinset ≠ {0}) (h1 : sensi_orders.toFinset ≠ {1})
    (h01 : sensi_orders.toFinset ≠ ({0, 1} : Finset ℕ)) :
    ∃ k ∈ sensi_orders, 2 ≤ k := by
  by_contra hcon
  push_neg at hcon
  have hlt : ∀ k ∈ sensi_orders, k = 0 ∨ k = 1 := fun k hk => by
    have := hcon k hk; omega
  by_cases hm0 : 0 ∈ sensi_orders <;> by_cases hm1 : 1 ∈ sensi_orders
  · exact h01 (by
      ext a
      simp only [List.mem_toFinset, Finset.mem_insert, Finset.mem_singleton]
      constructor
      · intro ha; rcases hlt a ha with h | h <;> simp [h]
      · rintro (rfl | rfl) <;> assumption)
  · exact h0 (by
      ext a
      simp only [List.mem_toFinset, Finset.mem_singleton]
      constructor
      · intro ha; rcases hlt a ha with h | h
        · exact h
        · exact absurd (h ▸ ha) hm1
      · rintro rfl; exact hm0)
  · exact h1 (by
      ext a
      simp only [List.mem_toFinset, Finset.mem_singleton]
      constructor
      · intro ha; rcases hlt a ha with h | h
        · exact absurd (h ▸ ha) hm0
        · exact h
      · rintro rfl; exact hm1)
  · obtain ⟨k, hk⟩ := List.exists_mem_of_ne_nil sensi_orders hne
    rcases hlt k hk with h | h
    · exact hm0 (h ▸ hk)
    · exact hm1 (h ▸ hk)

lemma gate_passes_low_orders (objCheck : List Nat → String → Bool)
    (sensi_orders : List Nat) (m : Nat) (hm : sensi_orders.max? = some m) (hm1 : m ≤ 1)
    (hc : objCheck sensi_orders MODE_FUN = true) :
    CachedObjective.check_sensi_orders objCheck sensi_orders MODE_FUN = some true := by
  unfold CachedObjective.check_sensi_orders
  rw [hm]
  show some (if 1 < m ∨ MODE_FUN ≠ MODE_FUN then false else objCheck sensi_orders MODE_FUN) = some true
  rw [if_neg (by simp; omega), hc]

lemma evaluate_value_only_off {X V G E : Type} [DecidableEq X]
    (objective : X → List Nat → String → Except E (ResultDict V G))
    (objCheck : List Nat → String → Bool) (s : CacheState X V G) (x : X)
    (hcheck : objCheck [0] MODE_FUN = true) (hs : s.x_cached = none) :
    CachedObjective.evaluate objective objCheck s x [0] MODE_FUN =
      (liftInner (objective x [0] MODE_FUN), s, [(x, [0], MODE_FUN)]) := by
  unfold CachedObjective.evaluate
  rw [gate_passes_low_orders objCheck [0] 0 rfl (by omega) hcheck]
  unfold CachedObjective.call_unprocessed
  rw [if_pos ⟨rfl, hs⟩]

lemma evaluate_repopulate {X V G E : Type} [DecidableEq X]
    (objective : X → List Nat → String → Except E (ResultDict V G))
    (objCheck : List Nat → String → Bool) (s : CacheState X V G) (x : X)
    (sensi_orders : List Nat) (mode : String)
    (hgate : CachedObjective.check_sensi_orders objCheck sensi_orders mode = some true)
    (hnotoff : ¬ (sensi_orders = [0] ∧ s.x_cached = none))
    (hmiss : s.x_cached ≠ some x)
    (hnotdeact : ¬ (sensi_orders = [0] ∧ s.grad_has_been_used = false))
    (r : ResultDict V G) (f : V) (g : G)
    (hok : objective x [0, 1] mode = .ok r) (hf : r.fval = some f) (hg : r.grad = some g) :
    CachedObjective.evaluate objective objCheck s x sensi_orders mode =
      CachedObjective.answerFromCache ⟨some x, some f, some g, false⟩ sensi_orders
        [(x, [0, 1], mode)] := by
  unfold CachedObjective.evaluate
  rw [hgate]
  unfold CachedObjective.call_unprocessed
  rw [if_neg hnotoff, if_pos hmiss, if_neg hnotdeact, hok]
  show (match r.fval with
    | none => (Except.error PyExc.keyError, { s with x_cached := some x }, [(x, [0, 1], mode)])
    | some f =>
      match r.grad with
      | none => (Except.error PyExc.keyError,
          { s with x_cached := some x, fval_cached := some f }, [(x, [0, 1], mode)])
      | some g => CachedObjective.answerFromCache ⟨some x, some f, some g, false⟩ sensi_orders
          [(x, [0, 1], mode)]) = _
  rw [hf, hg]

lemma mode_eq_of_gate {objCheck : List Nat → String → Bool}
    {sensi_orders : List Nat} {mode : String}
    (h : CachedObjective.check_sensi_orders objCheck sensi_orders mode = some true) :
    mode = MODE_FUN := by
  by_contra hmode
  unfold CachedObjective.check_sensi_orders at h
  cases hm : sensi_orders.max? with
  | none => rw [hm] at h; exact absurd h (by simp)
  | some m =>
    rw [hm] at h
    have h' : some (if 1 < m ∨ mode ≠ MODE_FUN then false else objCheck sensi_orders mode)
        = some true := h
    rw [if_pos (Or.inr hmode)] at h'
    exact absurd (Option.some.inj h') (by simp)

lemma consistent_of_used {X V G E : Type}
    (objective : X → List Nat → String → Except E (ResultDict V G))
    (s : CacheState X V G) (b : Bool) (h : CacheConsistent objective s) :
    CacheConsistent objective { s with grad_has_been_used := b } :=
  fun x0 hx0 => h x0 hx0

lemma answerFromCache_state_cases {X V G E : Type} (s : CacheState X V G)
    (sensi_orders : List Nat) (trace : List (X × List Nat × String)) :
    (CachedObjective.answerFromCache (E := E) s sensi_orders trace).2.1 = s ∨
    (CachedObjective.answerFromCache (E := E) s sensi_orders trace).2.1 =
      { s with grad_has_been_used := true } := by
  unfold CachedObjective.answerFromCache
  split
  · exact Or.inl rfl
  · split
    · exact Or.inr rfl
    · split
      · exact Or.inr rfl
      · exact Or.inl rfl

lemma consistent_answerFromCache {X V G E : Type}
    (objective : X → List Nat → String → Except E (ResultDict V G))
    (s : CacheState X V G) (sensi_orders : List Nat)
    (trace : List (X × List Nat × String)) (h : CacheConsistent objective s) :
    CacheConsistent objective
      ((CachedObjective.answerFromCache (E := E) s sensi_orders trace).2.1) := by
  rcases answerFromCache_state_cases (E := E) s sensi_orders trace with hcase | hcase
  · rw [hcase]; exact h
  · rw [hcase]; exact consistent_of_used objective s true h

/-!  The claims. -/

theorem c1_counterexample :
    ¬ ((CachedObjective.runCalls (E := Unit) checkAll
        [⟨innerSum, [0], [1], MODE_FUN⟩, ⟨innerSum, [1], [0], MODE_FUN⟩]
        (CachedObjective.initial (List Int) Int (List Int))).1.x_cached = none) := by
  intro h
  exact absurd h (by decide)

theorem c1_amended_two_call_sequence {X V G E : Type} [DecidableEq X]
    (inner1 inner2 : X → List Nat → String → Except E (ResultDict V G))
    (objCheck : List Nat → String → Bool) (x1 x2 : X)
    (r1 r2 : ResultDict V G) (f1 f2 : V) (g1 g2 : G)
    (hc0 : objCheck [0] MODE_FUN = true) (hc1 : objCheck [1] MODE_FUN = true)
    (hne : x2 ≠ x1)
    (h1 : inner1 x1 [0, 1] MODE_FUN = .ok r1) (h1f : r1.fval = some f1) (h1g : r1.grad = some g1)
    (h2 : inner2 x2 [0, 1] MODE_FUN = .ok r2) (h2f : r2.fval = some f2) (h2g : r2.grad = some g2) :
    CachedObjective.runCalls objCheck
      [⟨inner1, x1, [1], MODE_FUN⟩, ⟨inner2, x2, [0], MODE_FUN⟩]
      (CachedObjective.initial X V G) =
      (⟨some x2, some f2, some g2, false⟩,
        [(x1, [0, 1], MODE_FUN), (x2, [0, 1], MODE_FUN)],
        [.ok ⟨none, some g1⟩, .ok ⟨some f2, none⟩]) := by
  have step1 : CachedObjective.evaluate inner1 objCheck (CachedObjective.initial X V G)
      x1 [1] MODE_FUN =
      (.ok ⟨none, some g1⟩, ⟨some x1, some f1, some g1, true⟩, [(x1, [0, 1], MODE_FUN)]) := by
    rw [evaluate_repopulate inner1 objCheck _ x1 [1] MODE_FUN
      (gate_passes_low_orders objCheck [1] 1 rfl (by omega) hc1)
      (by simp) (by simp [CachedObjective.initial]) (by simp)
      r1 f1 g1 h1 h1f h1g]
    rfl
  have step2 : CachedObjective.evaluate inner2 objCheck
      (⟨some x1, some f1, some g1, true⟩ : CacheState X V G) x2 [0] MODE_FUN =
      (.ok ⟨some f2, none⟩, ⟨some x2, some f2, some g2, false⟩, [(x2, [0, 1], MODE_FUN)]) := by
    rw [evaluate_repopulate inner2 objCheck _ x2 [0] MODE_FUN
      (gate_passes_low_orders objCheck [0] 0 rfl (by omega) hc0)
      (by simp) (by simp [Ne.symm hne]) (by simp)
      r2 f2 g2 h2 h2f h2g]
    rfl
  simp only [CachedObjective.runCalls, step1, step2]
  rfl

/-- Witness for C1 (amended) on the toy sum objective. -/
theorem c1_amended_witness :
    CachedObjective.runCalls (E := Unit) checkAll
      [⟨innerSum, [0], [1], MODE_FUN⟩, ⟨innerSum, [1], [0], MODE_FUN⟩]
      (CachedObjective.initial (List Int) Int (List Int)) =
      (⟨some [1], some 1, some [1], false⟩,
        [([0], [0, 1], MODE_FUN), ([1], [0, 1], MODE_FUN)],
        [.ok ⟨none, some [1]⟩, .ok ⟨some 1, none⟩]) :=
  c1_amended_two_call_sequence innerSum innerSum checkAll [0] [1]
    ⟨some 0, some [1]⟩ ⟨some 1, some [1]⟩ 0 1 [1] [1]
    (by decide) (by decide) (by decide) rfl rfl rfl rfl rfl rfl

theorem c2_counterexample :
    (CachedObjective.runCalls (E := Unit) checkAll
      [⟨innerSum, [0], [1], MODE_FUN⟩, ⟨innerSum, [1], [0], MODE_FUN⟩,
        ⟨innerSum, [2], [0], MODE_FUN⟩]
      (CachedObjective.initial (List Int) Int (List Int))).1.x_cached = none ∧
    ¬ ((CachedObjective.runCalls (E := Unit) checkAll
      [⟨innerSum, [0], [1], MODE_FUN⟩, ⟨innerSum, [1], [0], MODE_FUN⟩,
        ⟨innerSum, [2], [0], MODE_FUN⟩]
      (CachedObjective.initial (List Int) Int (List Int))).1.fval_cached = none) := by
  decide

theorem c2_amended_cache_invariant {X V G E : Type} [DecidableEq X]
    (objective : X → List Nat → String → Except E (ResultDict V G))
    (objCheck : List Nat → String → Bool) (hwf : WellFormedJoint objective) :
    CacheConsistent objective (CachedObjective.initial X V G) ∧
    ∀ (s : CacheState X V G) (x : X) (sensi_orders : List Nat) (mode : String),
      CacheConsistent objective s →
      CacheConsistent objective
        (CachedObjective.evaluate objective objCheck s x sensi_orders mode).2.1 := by
  constructor
  · intro x0 hx0
    exact absurd hx0 (by simp [CachedObjective.initial])
  · intro s x sensi_orders mode hinv
    cases hgate : CachedObjective.check_sensi_orders objCheck sensi_orders mode with
    | none =>
      unfold CachedObjective.evaluate
      rw [hgate]
      exact hinv
    | some b =>
      cases b with
      | false =>
        unfold CachedObjective.evaluate
        rw [hgate]
        exact hinv
      | true =>
        have hmode : mode = MODE_FUN := mode_eq_of_gate hgate
        subst hmode
        unfold CachedObjective.evaluate
        rw [hgate]
        show CacheConsistent objective
          ((CachedObjective.call_unprocessed objective s x sensi_orders MODE_FUN).2.1)
        unfold CachedObjective.call_unprocessed
        split
        · exact hinv
        · split
          · split
            · intro x0 hx0
              exact absurd hx0 (by simp)
            · cases hok : objective x [0, 1] MODE_FUN with
              | error e => exact hinv
              | ok retval =>
                obtain ⟨hf, hg⟩ := hwf x retval hok
                obtain ⟨fv, gv⟩ := retval
                cases fv with
                | none => exact absurd rfl hf
                | some f =>
                  cases gv with
                  | none => exact absurd rfl hg
                  | some g =>
                    refine consistent_answerFromCache objective _ sensi_orders _ ?_
                    intro x0 hx0
                    have hx : x0 = x := by
                      simpa using hx0.symm
                    subst hx
                    exact ⟨⟨some f, some g⟩, hok, rfl, rfl, by simp, by simp⟩
          · exact consistent_answerFromCache objective s sensi_orders [] hinv

theorem c2_amended_witness :
    CacheConsistent innerSum
      (CachedObjective.evaluate innerSum checkAll
        (CachedObjective.initial (List Int) Int (List Int)) [1, 2] [1] MODE_FUN).2.1 := by
  have hwf : WellFormedJoint innerSum := by
    intro x r h
    have h' : (Except.ok ⟨some x.sum, some (x.map fun _ => 1)⟩ :
        Except Unit (ResultDict Int (List Int))) = Except.ok r := by
      rw [← h]; rfl
    rw [← Except.ok.inj h']
    exact ⟨by simp, by simp⟩
  exact (c2_amended_cache_invariant innerSum checkAll hwf).2
    (CachedObjective.initial (List Int) Int (List Int)) [1, 2] [1] MODE_FUN
    (c2_amended_cache_invariant innerSum checkAll hwf).1

theorem c3_counterexample :
    (LoggingObjective.runCalls [⟨innerSum, [1, 2], [1], MODE_FUN⟩]
      ([] : List (LogRecord (List Int) Int Unit))).1.length = 0 ∧
    ¬ ((LoggingObjective.runCalls [⟨innerSum, [1, 2], [1], MODE_FUN⟩]
      ([] : List (LogRecord (List Int) Int Unit))).1.length = 1) := by
  decide

theorem c3_amended_recorder_completeness {X V G E : Type}
    (calls : List (OuterCall X V G E)) (log : List (LogRecord X V E))
    (hok : ∀ c ∈ calls, ∀ r, c.inner c.x c.sensi_orders c.mode = .ok r → r.fval ≠ none) :
    (LoggingObjective.runCalls calls log).1 = log ++ calls.map LoggingObjective.recordOf ∧
    (LoggingObjective.runCalls calls log).1.length = log.length + calls.length ∧
    ∀ c ∈ calls, ∀ e, c.inner c.x c.sensi_orders c.mode = .error e →
      (LoggingObjective.recordOf c).err = some e ∧ (LoggingObjective.recordOf c).fval = none := by
  have main : ∀ (cs : List (OuterCall X V G E)) (lg : List (LogRecord X V E)),
      (∀ c ∈ cs, ∀ r, c.inner c.x c.sensi_orders c.mode = .ok r → r.fval ≠ none) →
      (LoggingObjective.runCalls cs lg).1 = lg ++ cs.map LoggingObjective.recordOf := by
    intro cs
    induction cs with
    | nil => intro lg _; simp [LoggingObjective.runCalls]
    | cons c cs ih =>
      intro lg hcs
      have hc := hcs c (List.mem_cons_self c cs)
      have hrest := fun d hd => hcs d (List.mem_cons_of_mem c hd)
      simp only [LoggingObjective.runCalls]
      cases hcall : c.inner c.x c.sensi_orders c.mode with
      | error e =>
        rw [show LoggingObjective.call_unprocessed c.inner lg c.x c.sensi_orders c.mode =
            (.error (.innerExc e), lg ++ [⟨c.x, c.sensi_orders, c.mode, none, some e⟩]) by
          unfold LoggingObjective.call_unprocessed
          rw [hcall]]
        rw [ih _ hrest]
        simp [LoggingObjective.recordOf, hcall]
      | ok r =>
        cases hfv : r.fval with
        | none => exact absurd hfv (hc r hcall)
        | some v =>
          rw [show LoggingObjective.call_unprocessed c.inner lg c.x c.sensi_orders c.mode =
              (.ok r, lg ++ [⟨c.x, c.sensi_orders, c.mode, some v, none⟩]) by
            unfold LoggingObjective.call_unprocessed
            rw [hcall]
            show (match r.fval with
              | none => (Except.error PyExc.keyError, lg)
              | some v => (Except.ok r,
                  lg ++ [(⟨c.x, c.sensi_orders, c.mode, some v, none⟩ : LogRecord X V E)])) = _
            rw [hfv]]
          rw [ih _ hrest]
          simp [LoggingObjective.recordOf, hcall, hfv]
  refine ⟨main calls log hok, ?_, ?_⟩
  · rw [main calls log hok]
    simp
  · intro c _ e hce
    unfold LoggingObjective.recordOf
    rw [hce]
    exact ⟨rfl, rfl⟩

theorem c3_amended_witness :
    (LoggingObjective.runCalls
      [⟨innerSum, [1, 2], [0], MODE_FUN⟩, ⟨innerFail, [3], [0], MODE_FUN⟩]
      ([] : List (LogRecord (List Int) Int Unit))).1 =
      [] ++ [(⟨innerSum, [1, 2], [0], MODE_FUN⟩ : OuterCall (List Int) Int (List Int) Unit),
        ⟨innerFail, [3], [0], MODE_FUN⟩].map LoggingObjective.recordOf :=
  (c3_amended_recorder_completeness
    [⟨innerSum, [1, 2], [0], MODE_FUN⟩, ⟨innerFail, [3], [0], MODE_FUN⟩] []
    (by
      intro c hc r hr
      fin_cases hc
      · have h' : (Except.ok ⟨some (3 : Int), none⟩ :
            Except Unit (ResultDict Int (List Int))) = Except.ok r := by
          rw [← hr]; rfl
        rw [← Except.ok.inj h']
        simp
      · exact absurd hr (by simp [innerFail]))).1

theorem c4_unsupported_orders_rejected {X V G E : Type} [DecidableEq X]
    (objective : X → List Nat → String → Except E (ResultDict V G))
    (objCheck : List Nat → String → Bool) (s : CacheState X V G) (x : X)
    (sensi_orders : List Nat) (mode : String) (hne : sensi_orders ≠ [])
    (h0 : sensi_orders.toFinset ≠ {0}) (h1 : sensi_orders.toFinset ≠ {1})
    (h01 : sensi_orders.toFinset ≠ ({0, 1} : Finset ℕ)) :
    CachedObjective.evaluate objective objCheck s x sensi_orders mode =
      (.error .unsupportedOrder, s, []) := by
  obtain ⟨k, hk, hk2⟩ := exists_order_ge_two sensi_orders hne h0 h1 h01
  obtain ⟨m, hm⟩ : ∃ m, sensi_orders.max? = some m := by
    cases hmax : sensi_orders.max? with
    | none => exact absurd (List.max?_eq_none_iff.mp hmax) hne
    | some m => exact ⟨m, rfl⟩
  have hm2 : 1 < m := lt_of_lt_of_le (by omega) (le_of_mem_max? hm k hk)
  unfold CachedObjective.evaluate CachedObjective.check_sensi_orders
  rw [hm]
  simp [hm2]

/-- Witness for C4 at the concrete input `sensi_orders = [2]`. -/
theorem c4_witness :
    CachedObjective.evaluate innerSum checkAll
      (⟨some [5], some 7, some [1, 1], true⟩ : CacheState (List Int) Int (List Int))
      [9] [2] MODE_FUN = (.error .unsupportedOrder, ⟨some [5], some 7, some [1, 1], true⟩, []) :=
  c4_unsupported_orders_rejected innerSum checkAll _ _ [2] MODE_FUN
    (by decide) (by decide) (by decide) (by decide)

theorem c5_counterexample :
    CachedObjective.check_sensi_orders checkNone [0] MODE_FUN = some false ∧
    ¬ CachedObjective.check_sensi_orders checkNone [0] MODE_FUN = some true := by
  decide

theorem c5_amended_capability (objCheck : List Nat → String → Bool)
    (h : objCheck [0] MODE_FUN = true) :
    CachedObjective.check_sensi_orders objCheck [0] MODE_FUN = some true ∧
    CachedObjective.check_sensi_orders objCheck [0, 1] MODE_FUN =
      some (objCheck [0, 1] MODE_FUN) := by
  constructor
  · show some (if 1 < 0 ∨ MODE_FUN ≠ MODE_FUN then false else objCheck [0] MODE_FUN) = some true
    simp [h]
  · show some (if 1 < max 0 1 ∨ MODE_FUN ≠ MODE_FUN then false else objCheck [0, 1] MODE_FUN) = _
    simp

/-- Witness for C5 (amended) at the always-accepting inner capability query. -/
theorem c5_amended_witness :
    CachedObjective.check_sensi_orders checkAll [0] MODE_FUN = some true ∧
    CachedObjective.check_sensi_orders checkAll [0, 1] MODE_FUN =
      some (checkAll [0, 1] MODE_FUN) :=
  c5_amended_capability checkAll (by decide)

theorem c6_failure_atomicity {X V G E : Type} [DecidableEq X]
    (objective : X → List Nat → String → Except E (ResultDict V G))
    (objCheck : List Nat → String → Bool) (s : CacheState X V G) (x : X)
    (sensi_orders : List Nat) (mode : String)
    (hgate : CachedObjective.check_sensi_orders objCheck sensi_orders mode = some true)
    (hnotoff : ¬ (sensi_orders = [0] ∧ s.x_cached = none))
    (hmiss : s.x_cached ≠ some x)
    (hnotdeact : ¬ (sensi_orders = [0] ∧ s.grad_has_been_used = false))
    (e : E) (hfail : objective x [0, 1] mode = .error e) :
    CachedObjective.evaluate objective objCheck s x sensi_orders mode =
      (.error (.innerExc e), s, [(x, [0, 1], mode)]) := by
  unfold CachedObjective.evaluate
  rw [hgate]
  unfold CachedObjective.call_unprocessed
  rw [if_neg hnotoff, if_pos hmiss, if_neg hnotdeact, hfail]

theorem c6_witness :
    CachedObjective.evaluate innerFail checkAll
      (⟨some [5], some 7, some [1, 1], true⟩ : CacheState (List Int) Int (List Int))
      [9] [1] MODE_FUN =
      (.error (.innerExc ()), ⟨some [5], some 7, some [1, 1], true⟩, [([9], [0, 1], MODE_FUN)]) :=
  c6_failure_atomicity innerFail checkAll _ [9] [1] MODE_FUN (by decide)
    (by decide) (by decide) (by decide) () rfl

theorem c7_value_only_never_caches {X V G E : Type} [DecidableEq X]
    (objCheck : List Nat → String → Bool) (calls : List (OuterCall X V G E))
    (s : CacheState X V G) (hcheck : objCheck [0] MODE_FUN = true)
    (hs : s.x_cached = none)
    (hcalls : ∀ c ∈ calls, c.sensi_orders = [0] ∧ c.mode = MODE_FUN) :
    CachedObjective.runCalls objCheck calls s =
      (s, calls.map (fun c => (c.x, [0], MODE_FUN)),
        calls.map (fun c => liftInner (c.inner c.x [0] MODE_FUN))) ∧
    ∀ n, (CachedObjective.runCalls objCheck (calls.take n) s).1.x_cached = none := by
  have main : ∀ (cs : List (OuterCall X V G E)), (∀ c ∈ cs, c.sensi_orders = [0] ∧ c.mode = MODE_FUN) →
      CachedObjective.runCalls objCheck cs s =
        (s, cs.map (fun c => (c.x, [0], MODE_FUN)),
          cs.map (fun c => liftInner (c.inner c.x [0] MODE_FUN))) := by
    intro cs hcs
    induction cs with
    | nil => rfl
    | cons c cs ih =>
      obtain ⟨ho, hmo⟩ := hcs c (List.mem_cons_self c cs)
      simp only [CachedObjective.runCalls, ho, hmo,
        evaluate_value_only_off c.inner objCheck s c.x hcheck hs,
        ih (fun d hd => hcs d (List.mem_cons_of_mem c hd)), List.map_cons,
        List.singleton_append]
  refine ⟨main calls hcalls, fun n => ?_⟩
  rw [main (calls.take n) (fun c hc => hcalls c (List.mem_of_mem_take hc))]
  exact hs

theorem c7_witness :
    CachedObjective.runCalls (E := Unit) checkAll
      [⟨innerSum, [0], [0], MODE_FUN⟩, ⟨innerSum, [1, 2], [0], MODE_FUN⟩]
      (CachedObjective.initial (List Int) Int (List Int)) =
      (CachedObjective.initial (List Int) Int (List Int),
        [([0], [0], MODE_FUN), ([1, 2], [0], MODE_FUN)],
        [.ok ⟨some 0, none⟩, .ok ⟨some 3, none⟩]) := by
  rw [(c7_value_only_never_caches checkAll
    [⟨innerSum, [0], [0], MODE_FUN⟩, ⟨innerSum, [1, 2], [0], MODE_FUN⟩]
    (CachedObjective.initial (List Int) Int (List Int)) (by decide) rfl
    (by intro c hc; fin_cases hc <;> exact ⟨rfl, rfl⟩)).1]
  rfl

theorem c8_recorder_failure_path {X V G E : Type}
    (objective : X → List Nat → String → Except E (ResultDict V G))
    (log : List (LogRecord X V E)) (x : X) (sensi_orders : List Nat) (mode : String) :
    (∀ e, objective x sensi_orders mode = .error e →
      LoggingObjective.call_unprocessed objective log x sensi_orders mode =
        (.error (.innerExc e), log ++ [⟨x, sensi_orders, mode, none, some e⟩])) ∧
    (∀ r v, objective x sensi_orders mode = .ok r → r.fval = some v →
      LoggingObjective.call_unprocessed objective log x sensi_orders mode =
        (.ok r, log ++ [⟨x, sensi_orders, mode, some v, none⟩])) := by
  constructor
  · intro e he
    simp [LoggingObjective.call_unprocessed, he]
  · intro r v hr hv
    simp [LoggingObjective.call_unprocessed, hr, hv]

/-- Witness for C8: a concrete failing call is recorded and re-raised. -/
theorem c8_witness :
    LoggingObjective.call_unprocessed innerFail
      ([] : List (LogRecord (List Int) Int Unit)) [1, 2] [0] MODE_FUN =
      (.error (.innerExc ()), [⟨[1, 2], [0], MODE_FUN, none, some ()⟩]) :=
  (c8_recorder_failure_path innerFail [] [1, 2] [0] MODE_FUN).1 () rfl

theorem c9_deactivation_clears_cache {X V G E : Type} [DecidableEq X]
    (objective : X → List Nat → String → Except E (ResultDict V G))
    (objCheck : List Nat → String → Bool) (s : CacheState X V G) (x xc : X)
    (hcheck : objCheck [0] MODE_FUN = true)
    (hc : s.x_cached = some xc) (hne : xc ≠ x) (hused : s.grad_has_been_used = false)
    (e : E) (hfail : objective x [0] MODE_FUN = .error e) :
    CachedObjective.evaluate objective objCheck s x [0] MODE_FUN =
      (.error (.innerExc e),
        ⟨none, s.fval_cached, s.grad_cached, s.grad_has_been_used⟩,
        [(x, [0], MODE_FUN)]) := by
  have hgate : CachedObjective.check_sensi_orders objCheck [0] MODE_FUN = some true := by
    show some (if 1 < 0 ∨ MODE_FUN ≠ MODE_FUN then false else objCheck [0] MODE_FUN) = some true
    simp [hcheck]
  unfold CachedObjective.evaluate
  rw [hgate]
  unfold CachedObjective.call_unprocessed
  rw [if_neg (by simp [hc])]
  rw [if_pos (by simp [hc, hne])]
  rw [if_pos ⟨rfl, hused⟩]
  rw [hfail]
  rfl

/-- Witness for C9: concrete deactivation with a failing inner call. -/
theorem c9_witness :
    CachedObjective.evaluate innerFail checkAll
      (⟨some [5], some 7, some [1, 1], false⟩ : CacheState (List Int) Int (List Int))
      [9] [0] MODE_FUN =
      (.error (.innerExc ()), ⟨none, some 7, some [1, 1], false⟩, [([9], [0], MODE_FUN)]) :=
  c9_deactivation_clears_cache innerFail checkAll _ [9] [5] (by decide) rfl
    (by decide) rfl () rfl

theorem c10_deepcopy_fresh_state {X V G E : Type} (o : CachedObjectiveObj X V G E) :
    o.deepcopy.state.x_cached = none ∧ o.deepcopy.state.fval_cached = none ∧
    o.deepcopy.state.grad_cached = none ∧ o.deepcopy.state.grad_has_been_used = false ∧
    o.deepcopy.objective = o.objective ∧ o.deepcopy.objectiveCheck = o.objectiveCheck :=
  ⟨rfl, rfl, rfl, rfl, rfl, rfl⟩
